import Mathlib

/-!
Shallow embedding of the `interview-slot-suggester` program (src/main.rs).

Instants (`chrono::NaiveDateTime` values) are embedded as `Int`: seconds since
the Unix epoch.  `chrono` works on a leap-second-free timeline, so addition of
`Duration`s, `.date()` truncation and comparisons all transport to plain
integer arithmetic (`Int./` and `Int.%` are euclidean, hence floor
division/modulus for the positive constants used here, matching `chrono`'s
behaviour on instants before 1970 as well).  Timezones (`chrono_tz::Tz`) are
embedded as abstract UTC-offset functions; the only use the program makes of a
timezone is `with_timezone(&tz).hour()`.
-/

namespace SlotSuggester

/-- `t.date()` as an instant: midnight of the day containing `t`. -/
def dateOf (t : Int) : Int := 86400 * (t / 86400)

/-- `NaiveDate::and_hms_opt` applied to the midnight instant `d`:
`Some` exactly when the clock reading is valid. -/
def and_hms_opt (d : Int) (h m s : Nat) : Option Int :=
  if h ≤ 23 ∧ m ≤ 59 ∧ s ≤ 59 then some (d + (h : Int) * 3600 + (m : Int) * 60 + (s : Int))
  else none

/-- `NaiveDateTime::hour()` of an instant. -/
def hourOf (t : Int) : Int := t % 86400 / 3600

/-- A timezone is used by the program only through the UTC offset it applies at
a given UTC instant (`with_timezone`). -/
structure Tz where
  offset : Int → Int

/-- `utc_dt.with_timezone(&tz).hour()`. -/
def localHour (tz : Tz) (t : Int) : Int := hourOf (t + tz.offset t)

/-- Value of an ASCII digit character, `none` otherwise. -/
def digitVal (c : Char) : Option Nat :=
  if c.isDigit then some (c.toNat - 48) else none

/-- Value of a string of ASCII digits, `none` if any character is not a digit. -/
def digitsVal (cs : List Char) : Option Nat :=
  cs.foldl (fun acc c =>
    match acc, digitVal c with
    | some a, some d => some (a * 10 + d)
    | _, _ => none) (some 0)

/-- Gregorian leap-year test, as used by `chrono`'s calendar. -/
def isLeapYear (y : Nat) : Bool :=
  y % 4 == 0 && (y % 100 != 0 || y % 400 == 0)

/-- Number of days in a month of the proleptic Gregorian calendar. -/
def daysInMonth (y m : Nat) : Nat :=
  if m = 2 then (if isLeapYear y then 29 else 28)
  else if m = 4 ∨ m = 6 ∨ m = 9 ∨ m = 11 then 30
  else 31

/-- Days between 1970-01-01 and the civil date `y-m-d`
(standard days-from-civil algorithm; `Int./` is floor division here). -/
def daysFromCivil (y m d : Nat) : Int :=
  let yi : Int := if m ≤ 2 then (y : Int) - 1 else (y : Int)
  let era : Int := yi / 400
  let yoe : Int := yi - era * 400
  let mp : Int := if m ≤ 2 then (m : Int) + 9 else (m : Int) - 3
  let doy : Int := (153 * mp + 2) / 5 + (d : Int) - 1
  let doe : Int := yoe * 365 + yoe / 4 - yoe / 100 + doy
  era * 146097 + doe - 719468

/-- Instant (seconds since epoch) of the UTC civil datetime `y-m-d h:mi:s`. -/
def toSecs (y mo d h mi s : Nat) : Int :=
  daysFromCivil y mo d * 86400 + (h : Int) * 3600 + (mi : Int) * 60 + (s : Int)

/-- Outcome of a Rust function that may panic: either a normal return value
or a panic aborting the process. -/
inductive ParseOutcome where
  | ok : Option Int → ParseOutcome
  | panic : ParseOutcome
deriving DecidableEq

/-- Rust's `str::is_char_boundary` on the UTF-8 byte sequence `bs`: true at
index 0 and at the length, otherwise true iff the byte at the index is not a
continuation byte (`(b as i8) >= -0x40`, i.e. `b < 0x80 ∨ 0xC0 ≤ b`). -/
def isCharBoundary (bs : List Nat) (i : Nat) : Bool :=
  if i = 0 then true
  else
    match bs[i]? with
    | none => i == bs.length
    | some b => decide (b < 128 ∨ 192 ≤ b)

/-- A Rust byte-range slice `&s[a..b]`: the bytes, or `none` (a panic) when an
endpoint is out of range or not a character boundary. -/
def sliceBytes (bs : List Nat) (a b : Nat) : Option (List Nat) :=
  if a ≤ b ∧ b ≤ bs.length ∧ isCharBoundary bs a = true ∧ isCharBoundary bs b = true
  then some ((bs.drop a).take (b - a))
  else none

/-- ASCII digit test on a byte. -/
def isAsciiDigit (b : Nat) : Bool :=
  decide (48 ≤ b) && decide (b ≤ 57)

/-- Value of a byte string of ASCII digits, `none` if any byte is not a
digit. -/
def digitsValBytes (bs : List Nat) : Option Nat :=
  if bs.all isAsciiDigit then some (bs.foldl (fun a b => a * 10 + (b - 48)) 0)
  else none

/-- `DateTime::parse_from_rfc3339` applied to the reassembled string
`"{y}-{mo}-{d}T{h}:{mi}:{s}Z"` followed by `.with_timezone(&Utc).naive_utc()`:
succeeds exactly when every component is all ASCII digits and the values form
a valid Gregorian date and a valid clock time (chrono additionally accepts the
leap-second reading `s = 60`, stored with the timestamp of second 59). -/
def rfc3339_parse (y mo d h mi s : List Nat) : Option Int :=
  match digitsValBytes y, digitsValBytes mo, digitsValBytes d, digitsValBytes h,
      digitsValBytes mi, digitsValBytes s with
  | some yv, some mov, some dv, some hv, some miv, some sv =>
    if 1 ≤ mov ∧ mov ≤ 12 ∧ 1 ≤ dv ∧ dv ≤ daysInMonth yv mov ∧ hv ≤ 23 ∧ miv ≤ 59 ∧ sv ≤ 60
    then some (toSecs yv mov dv hv miv (min sv 59))
    else none
  | _, _, _, _, _, _ => none

/-- `parse_ics_datetime` from src/main.rs, on the UTF-8 bytes of the input
string, with Rust's byte semantics: `ends_with('Z')` is a last byte 0x5A
(continuation bytes are ≥ 0x80, so in valid UTF-8 this is exactly a trailing
character 'Z'), `without_z.len() == 15` counts bytes, and the six slices
`[0..4]`, `[4..6]`, `[6..8]`, `[9..11]`, `[11..13]`, `[13..15]` are byte-range
slices that panic on a non-character-boundary endpoint (byte position 8, the
`T` separator, is sliced around but its boundary is still required by the
`[6..8]` and `[9..11]` slices). -/
def parse_ics_datetime (s : List Nat) : ParseOutcome :=
  if s.getLast? = some 90 then
    if s.dropLast.length = 15 then
      match sliceBytes s.dropLast 0 4, sliceBytes s.dropLast 4 6,
          sliceBytes s.dropLast 6 8, sliceBytes s.dropLast 9 11,
          sliceBytes s.dropLast 11 13, sliceBytes s.dropLast 13 15 with
      | some y, some mo, some d, some h, some mi, some sec =>
        ParseOutcome.ok (rfc3339_parse y mo d h mi sec)
      | _, _, _, _, _, _ => ParseOutcome.panic
    else ParseOutcome.ok none
  else ParseOutcome.ok none

/-- UTF-8 encoding of one character (RFC 3629), matching how Rust stores a
`String`. -/
def utf8Encode (c : Char) : List Nat :=
  let n := c.toNat
  if n < 128 then [n]
  else if n < 2048 then [192 ||| (n >>> 6), 128 ||| (n &&& 63)]
  else if n < 65536 then
    [224 ||| (n >>> 12), 128 ||| ((n >>> 6) &&& 63), 128 ||| (n &&& 63)]
  else
    [240 ||| (n >>> 18), 128 ||| ((n >>> 12) &&& 63), 128 ||| ((n >>> 6) &&& 63),
      128 ||| (n &&& 63)]

/-- UTF-8 encoding of a character sequence. -/
def utf8EncodeList (cs : List Char) : List Nat :=
  cs.flatMap utf8Encode

/-- The datetime parser as it enters the event-collection model: the
byte-level `parse_ics_datetime` applied to the property value's UTF-8 bytes,
with the panic outcome collapsed to `none` so that extraction stays total
(the abort behaviour itself is stated against `parse_ics_datetime` directly;
on the ASCII alphabet of recognized timestamps no slice can panic and this
wrapper agrees with the program exactly). -/
def parse_ics_value (s : List Char) : Option Int :=
  match parse_ics_datetime (utf8EncodeList s) with
  | ParseOutcome.ok r => r
  | ParseOutcome.panic => none

/-- One property of an ICS event (`ical::property::Property`): a name and an
optional value. -/
structure Property where
  name : String
  value : Option (List Char)

/-- One event of a parsed ICS calendar. -/
structure IcalEvent where
  properties : List Property

/-- One successfully parsed ICS calendar. -/
structure IcalCalendar where
  events : List IcalEvent

/-- `event.properties.iter().find(|p| p.name == n).and_then(|p| p.value.as_ref())`. -/
def findPropValue (props : List Property) (n : String) : Option (List Char) :=
  (props.find? (fun p => p.name == n)).bind (fun p => p.value)

/-- The busy interval contributed by one event, if any: both DTSTART and DTEND
must be present and parseable, and the event must not end before the search
start (`end_dt >= start_search`). -/
def eventInterval (start_search : Int) (e : IcalEvent) : Option (Int × Int) :=
  match findPropValue e.properties "DTSTART", findPropValue e.properties "DTEND" with
  | some start_str, some end_str =>
    match parse_ics_value start_str, parse_ics_value end_str with
    | some start_dt, some end_dt =>
      if start_search ≤ end_dt then some (start_dt, end_dt) else none
    | _, _ => none
  | _, _ => none

/-- The `events` vector built by the per-file, per-calendar, per-event loops of
`main`, for a given list of successfully parsed calendars. -/
def collectEvents (start_search : Int) (cals : List IcalCalendar) : List (Int × Int) :=
  cals.flatMap (fun c => c.events.filterMap (eventInterval start_search))

/-- The conflict test of the main loop: some buffered busy interval overlaps
the slot `[current, current + 30m)` (`Duration::minutes` of the buffer is
`buffer_mins * 60` seconds; `slot_end = current + 1800`). -/
def has_conflict (events : List (Int × Int)) (buffer_mins current : Int) : Bool :=
  events.any (fun ev =>
    decide (current < ev.2 + buffer_mins * 60) &&
    decide (current + 1800 > ev.1 - buffer_mins * 60))

/-- The morning score of a free slot: 1 when the local hour lies in [9, 12),
else 0. -/
def score (tz : Tz) (current : Int) : Int :=
  if 9 ≤ localHour tz current ∧ localHour tz current < 12 then 1 else 0

/-- Number of iterations of the `while current <= end_search` loop. -/
def slotCount (current end_search : Int) : Nat :=
  if current ≤ end_search then ((end_search - current) / 1800).toNat + 1 else 0

/-- The instants visited by `n` iterations of the 30-minute stepping loop. -/
def genGridN : Nat → Int → List Int
  | 0, _ => []
  | n + 1, current => current :: genGridN n (current + 1800)

/-- The candidate grid: all instants visited by the
`while current <= end_search` loop stepping by 30 minutes. -/
def genGrid (current end_search : Int) : List Int :=
  genGridN (slotCount current end_search) current

/-- `genGrid` satisfies the defining recurrence of the source's while loop. -/
theorem genGrid_eq (current end_search : Int) :
    genGrid current end_search =
      if current ≤ end_search then current :: genGrid (current + 1800) end_search
      else [] := by
  unfold genGrid slotCount
  by_cases h : current ≤ end_search
  · simp only [h, if_true]
    by_cases h2 : current + 1800 ≤ end_search
    · simp only [h2, if_true]
      have he : (end_search - current) / 1800 = (end_search - (current + 1800)) / 1800 + 1 := by
        omega
      have : ((end_search - current) / 1800).toNat
          = ((end_search - (current + 1800)) / 1800).toNat + 1 := by
        omega
      rw [this]
      rfl
    · simp only [h2, if_false]
      have : ((end_search - current) / 1800).toNat = 0 := by
        omega
      rw [this]
      rfl
  · simp only [h, if_false]
    rfl

/-- The body of the candidate-collecting loop, run for `n` iterations. -/
def genCandidatesN (events : List (Int × Int)) (buffer_mins : Int) (tz : Tz) :
    Nat → Int → List (Int × Int)
  | 0, _ => []
  | n + 1, current =>
    (if has_conflict events buffer_mins current then []
     else [(current, score tz current)]) ++
      genCandidatesN events buffer_mins tz n (current + 1800)

/-- The `candidates` vector built by the main loop: every non-conflicting grid
instant, paired with its score, in grid order. -/
def genCandidates (events : List (Int × Int)) (buffer_mins : Int) (tz : Tz)
    (current end_search : Int) : List (Int × Int) :=
  genCandidatesN events buffer_mins tz (slotCount current end_search) current

/-- The candidate loop is the conflict filter followed by scoring, applied to
the grid. -/
theorem genCandidatesN_eq (events : List (Int × Int)) (buffer_mins : Int) (tz : Tz)
    (n : Nat) (current : Int) :
    genCandidatesN events buffer_mins tz n current =
      ((genGridN n current).filter (fun t => !has_conflict events buffer_mins t)).map
        (fun t => (t, score tz t)) := by
  induction n generalizing current with
  | zero => rfl
  | succ n ih =>
    simp only [genCandidatesN, genGridN, List.filter_cons]
    by_cases h : has_conflict events buffer_mins current
    · simp [h, ih]
    · simp [h, ih]

/-- The sort comparator of `candidates.sort_by`: `a` may precede `b` iff
`b.1.cmp(&a.1).then(a.0.cmp(&b.0))` is not `Greater`, i.e. score descending
with ties broken by slot start ascending. -/
def slotLE (a b : Int × Int) : Bool :=
  decide (b.2 < a.2) || (decide (a.2 = b.2) && decide (a.1 ≤ b.1))

/-- The ranking step: Rust's `sort_by` is a stable sort, embedded as the
stable `mergeSort` with the same comparator. -/
def rank (candidates : List (Int × Int)) : List (Int × Int) :=
  candidates.mergeSort slotLE

/-- What the program renders: either the explicit empty-result message or a
table whose rows are (slot start, score) pairs. -/
inductive Output where
  | noSlots : Output
  | table : List (Int × Int) → Output
deriving DecidableEq

/-- The fatal error kinds of the program. -/
inductive MainError where
  | invalidTimezone : MainError
  | fileOpenFailure : String → MainError
  | calendarParseFailure : MainError
deriving DecidableEq

/-- The parsed command-line arguments. -/
structure Args where
  ics_files : List String
  days_ahead : Int
  start_hour : Nat
  end_hour : Nat
  buffer_mins : Int
  timezone : String

/-- The external collaborators: the timezone database consulted by
`Tz::from_str`, and the filesystem/ICS layer.  `fs path = none` models a
`File::open` failure; a `none` item inside a file models a calendar whose
parse fails. -/
structure World where
  tzdb : String → Option Tz
  fs : String → Option (List (Option IcalCalendar))

/-- Sequence the per-calendar parse results of one file, failing on the first
parse error. -/
def seqCals : List (Option IcalCalendar) → Option (List IcalCalendar)
  | [] => some []
  | none :: _ => none
  | some c :: rest => (seqCals rest).map (fun cs => c :: cs)

/-- The file-reading loop of `main`: open and parse each file in order,
aborting on the first failure.  Returns the list of paths actually opened
(the file-I/O trace) together with the collected calendars or the error. -/
def readAll (fs : String → Option (List (Option IcalCalendar))) :
    List String → List String × Except MainError (List IcalCalendar)
  | [] => ([], Except.ok [])
  | p :: ps =>
    match fs p with
    | none => ([p], Except.error (MainError.fileOpenFailure p))
    | some items =>
      match seqCals items with
      | none => ([p], Except.error MainError.calendarParseFailure)
      | some cals =>
        let rest := readAll fs ps
        (p :: rest.1, rest.2.map (fun more => cals ++ more))

/-- The output step of `main`: the empty-result message when no candidate
survived, otherwise a table of the first 5 ranked candidates
(`candidates.iter().take(5)`). -/
def finalize (ranked : List (Int × Int)) : Output :=
  if ranked.isEmpty then Output.noSlots else Output.table (ranked.take 5)

/-- `let start_search = now + Duration::days(1)`. -/
def start_search (now : Int) : Int := now + 86400

/-- `end_search`: `start_search + Duration::days(days_ahead)`, then its date
at `end_hour:59:59`, falling back to `now` when the clock reading is invalid
(`.unwrap_or(now)`). -/
def end_search (now days_ahead : Int) (end_hour : Nat) : Int :=
  (and_hms_opt (dateOf (start_search now + days_ahead * 86400)) end_hour 59 59).getD now

/-- The initial `current` of the slot loop: the date of `start_search` at
`start_hour:00:00`, falling back to `now` when the clock reading is invalid
(`.unwrap_or(now)`). -/
def first_slot (now : Int) (start_hour : Nat) : Int :=
  (and_hms_opt (dateOf (start_search now)) start_hour 0 0).getD now

/-- The whole program, with the current instant `now` passed explicitly:
parse the timezone, compute the search window, read all calendars, build and
rank the candidates, and render.  The first component is the file-I/O trace. -/
def run (w : World) (args : Args) (now : Int) :
    List String × Except MainError Output :=
  match w.tzdb args.timezone with
  | none => ([], Except.error MainError.invalidTimezone)
  | some tz =>
    match readAll w.fs args.ics_files with
    | (trace, Except.error e) => (trace, Except.error e)
    | (trace, Except.ok cals) =>
      (trace,
        Except.ok (finalize (rank (genCandidates
          (collectEvents (start_search now) cals) args.buffer_mins tz
          (first_slot now args.start_hour)
          (end_search now args.days_ahead args.end_hour)))))

/-- Closed form of the stepping loop: `n` steps of 30 minutes from `c`. -/
theorem genGridN_eq_map (n : Nat) (c : Int) :
    genGridN n c = (List.range n).map (fun i : Nat => c + 1800 * (i : Int)) := by
  induction n generalizing c with
  | zero => rfl
  | succ n ih =>
    rw [show genGridN (n + 1) c = c :: genGridN n (c + 1800) from rfl, ih,
      List.range_succ_eq_map, List.map_cons, List.map_map]
    congr 1
    · norm_num
    · apply List.map_congr_left
      intro i _
      simp only [Function.comp_apply]
      push_cast
      ring

/-- Membership in the grid: exactly the 30-minute multiples from `c` that do
not exceed `e`. -/
theorem mem_genGrid (c e t : Int) :
    t ∈ genGrid c e ↔ ∃ k : Nat, t = c + 1800 * (k : Int) ∧ t ≤ e := by
  rw [genGrid, genGridN_eq_map]
  constructor
  · intro ht
    obtain ⟨i, hi, rfl⟩ := List.mem_map.1 ht
    rw [List.mem_range] at hi
    refine ⟨i, rfl, ?_⟩
    unfold slotCount at hi
    by_cases hce : c ≤ e
    · simp only [hce, if_true] at hi
      omega
    · simp [hce] at hi
  · rintro ⟨k, rfl, hle⟩
    refine List.mem_map.2 ⟨k, ?_, rfl⟩
    rw [List.mem_range]
    unfold slotCount
    have hce : c ≤ e := by omega
    simp only [hce, if_true]
    omega

/-- Consecutive grid instants differ by exactly 30 minutes. -/
theorem genGridN_chain (n : Nat) :
    ∀ c : Int, (genGridN n c).Chain' (fun a b => b = a + 1800) := by
  induction n with
  | zero =>
    intro c
    simp [genGridN]
  | succ n ih =>
    intro c
    rw [show genGridN (n + 1) c = c :: genGridN n (c + 1800) from rfl,
      List.chain'_cons']
    refine ⟨?_, ih (c + 1800)⟩
    intro b hb
    cases n with
    | zero => simp [genGridN] at hb
    | succ m =>
      rw [show genGridN (m + 1) (c + 1800)
          = (c + 1800) :: genGridN m (c + 1800 + 1800) from rfl] at hb
      simp only [List.head?_cons, Option.mem_def, Option.some.injEq] at hb
      omega

/-- Grid instants are strictly increasing. -/
theorem genGrid_pairwise_lt (c e : Int) :
    (genGrid c e).Pairwise (fun a b => a < b) := by
  rw [genGrid, genGridN_eq_map]
  refine List.Pairwise.map _ ?_ (List.pairwise_lt_range _)
  intro a b hab
  omega

/-- The sort comparator is transitive. -/
theorem slotLE_trans (a b c : Int × Int)
    (h1 : slotLE a b = true) (h2 : slotLE b c = true) : slotLE a c = true := by
  simp only [slotLE, Bool.or_eq_true, Bool.and_eq_true, decide_eq_true_eq] at *
  omega

/-- The sort comparator is total. -/
theorem slotLE_total (a b : Int × Int) : (slotLE a b || slotLE b a) = true := by
  simp only [slotLE, Bool.or_eq_true, Bool.and_eq_true, decide_eq_true_eq]
  omega

/-- The UTC timezone: zero offset everywhere (used as a concrete instance). -/
def tzUTC : Tz := ⟨fun _ => 0⟩

/-- C1: a slot is reported conflicted iff some busy interval (start, end)
satisfies slotStart < end + buffer ∧ slotStart + 30m > start − buffer, under
strict (half-open) comparisons; consequently every candidate reported free
overlaps no interval widened symmetrically by the buffer, and a slot exactly
touching a widened interval's boundary is free. -/
theorem conflict_iff_and_free_no_overlap :
    (∀ (events : List (Int × Int)) (buffer_mins current : Int),
      has_conflict events buffer_mins current = true ↔
        ∃ ev ∈ events, current < ev.2 + buffer_mins * 60 ∧
          current + 1800 > ev.1 - buffer_mins * 60) ∧
    (∀ (events : List (Int × Int)) (buffer_mins : Int) (tz : Tz) (c e : Int),
      ∀ p ∈ genCandidates events buffer_mins tz c e,
        ¬ ∃ ev ∈ events, p.1 < ev.2 + buffer_mins * 60 ∧
          p.1 + 1800 > ev.1 - buffer_mins * 60) := by
  have hiff : ∀ (events : List (Int × Int)) (b cur : Int),
      has_conflict events b cur = true ↔
        ∃ ev ∈ events, cur < ev.2 + b * 60 ∧ cur + 1800 > ev.1 - b * 60 := by
    intro events b cur
    simp [has_conflict, List.any_eq_true, gt_iff_lt]
  refine ⟨hiff, ?_⟩
  intro events b tz c e p hp hex
  rw [genCandidates, genCandidatesN_eq] at hp
  obtain ⟨t, ht, rfl⟩ := List.mem_map.1 hp
  have hkeep := List.of_mem_filter ht
  have hc : has_conflict events b t = true := (hiff events b t).2 hex
  rw [hc] at hkeep
  simp at hkeep

/-- Witness for C1 at a concrete input: the slot at instant 0 is free against
a single busy interval far in the future, and overlaps no widened interval. -/
theorem conflict_iff_and_free_no_overlap_witness :
    (((0 : Int), (0 : Int)) ∈
      genCandidates [((100000 : Int), (200000 : Int))] 0 tzUTC 0 0) ∧
    ¬ ∃ ev ∈ [((100000 : Int), (200000 : Int))],
      (0 : Int) < ev.2 + 0 * 60 ∧ (0 : Int) + 1800 > ev.1 - 0 * 60 :=
  ⟨by decide,
    conflict_iff_and_free_no_overlap.2 [((100000 : Int), (200000 : Int))] 0 tzUTC 0 0
      ((0 : Int), (0 : Int)) (by decide)⟩

/-- C2: the candidate grid starts at the first search day (day of now + 1
day) at dayStartHour:00:00 and steps by exactly 30 minutes while the instant
is ≤ the single window end, itself computed once as the date of (search start
+ daysAhead days) at dayEndHour:59:59; membership is constrained only by that
single cutoff (no per-day clamping), and consecutive starts differ by exactly
30 minutes. -/
theorem grid_spec (now days_ahead : Int) (start_hour end_hour : Nat)
    (hs : start_hour ≤ 23) (he : end_hour ≤ 23) :
    first_slot now start_hour = dateOf (now + 86400) + (start_hour : Int) * 3600 ∧
    end_search now days_ahead end_hour
      = dateOf (now + 86400 + days_ahead * 86400) + (end_hour : Int) * 3600 + 3599 ∧
    genGrid (first_slot now start_hour) (end_search now days_ahead end_hour)
      = (List.range (slotCount (first_slot now start_hour)
          (end_search now days_ahead end_hour))).map
          (fun i : Nat => first_slot now start_hour + 1800 * (i : Int)) ∧
    (∀ t, t ∈ genGrid (first_slot now start_hour) (end_search now days_ahead end_hour) ↔
      ∃ k : Nat, t = first_slot now start_hour + 1800 * (k : Int) ∧
        t ≤ end_search now days_ahead end_hour) ∧
    (genGrid (first_slot now start_hour) (end_search now days_ahead end_hour)).Chain'
      (fun a b => b = a + 1800) := by
  refine ⟨?_, ?_, genGridN_eq_map _ _, fun t => mem_genGrid _ _ t, genGridN_chain _ _⟩
  · rw [first_slot, start_search, and_hms_opt, if_pos ⟨hs, by omega, by omega⟩,
      Option.getD_some]
    push_cast
    ring
  · rw [end_search, start_search, and_hms_opt, if_pos ⟨he, by omega, by omega⟩,
      Option.getD_some]
    push_cast
    ring

/-- Witness for C2 at now = 0, daysAhead = 7, hours 9–18. -/
theorem grid_spec_witness :
    (9 : Nat) ≤ 23 ∧ (18 : Nat) ≤ 23 ∧
    first_slot 0 9 = dateOf (0 + 86400) + ((9 : Nat) : Int) * 3600 :=
  ⟨by decide, by decide, (grid_spec 0 7 9 18 (by decide) (by decide)).1⟩

/-- C6: every grid instant starts strictly after `now` and lies on a day
strictly after the day of `now` (the window start is now + 1 day). -/
theorem never_today (now days_ahead : Int) (start_hour end_hour : Nat)
    (hs : start_hour ≤ 23) :
    ∀ t ∈ genGrid (first_slot now start_hour) (end_search now days_ahead end_hour),
      now < t ∧ dateOf now < dateOf t := by
  intro t ht
  rw [mem_genGrid] at ht
  obtain ⟨k, rfl, hle⟩ := ht
  have h1 : first_slot now start_hour = dateOf (now + 86400) + (start_hour : Int) * 3600 := by
    rw [first_slot, start_search, and_hms_opt, if_pos ⟨hs, by omega, by omega⟩,
      Option.getD_some]
    push_cast
    ring
  rw [h1]
  simp only [dateOf]
  constructor
  · omega
  · omega

/-- Witness for C6 at now = 0, daysAhead = 1, hours 9–18: the first grid slot
is 118800 (tomorrow 09:00 UTC). -/
theorem never_today_witness :
    (9 : Nat) ≤ 23 ∧ ((0 : Int) < 118800 ∧ dateOf 0 < dateOf 118800) :=
  ⟨by decide, never_today 0 1 9 18 (by decide) 118800 (by decide)⟩

/-- C3: every free candidate carries score exactly 1 when its slot start's
local hour in the display timezone lies in [9, 12), and exactly 0 otherwise. -/
theorem score_rule (events : List (Int × Int)) (b : Int) (tz : Tz) (c e : Int) :
    ∀ p ∈ genCandidates events b tz c e,
      p.2 = if 9 ≤ localHour tz p.1 ∧ localHour tz p.1 < 12 then 1 else 0 := by
  intro p hp
  rw [genCandidates, genCandidatesN_eq] at hp
  obtain ⟨t, _, rfl⟩ := List.mem_map.1 hp
  rfl

/-- Witness for C3: with no events, the slot at instant 0 is a candidate and
its score is 0 (local hour 0 in UTC). -/
theorem score_rule_witness :
    (((0 : Int), (0 : Int)) ∈ genCandidates ([] : List (Int × Int)) 0 tzUTC 0 0) ∧
    ((0 : Int), (0 : Int)).2
      = (if 9 ≤ localHour tzUTC ((0 : Int), (0 : Int)).1 ∧
          localHour tzUTC ((0 : Int), (0 : Int)).1 < 12 then 1 else 0) :=
  ⟨by decide, score_rule [] 0 tzUTC 0 0 ((0 : Int), (0 : Int)) (by decide)⟩

/-- C4: in the ranked output every adjacent pair is ordered by score strictly
descending, or by equal scores and slot start strictly ascending (slot starts
of the candidate list are unique, being a subsequence of the strictly
increasing grid). -/
theorem ranked_total_order (events : List (Int × Int)) (b : Int) (tz : Tz) (c e : Int) :
    (rank (genCandidates events b tz c e)).Chain'
      (fun x y => y.2 < x.2 ∨ (x.2 = y.2 ∧ x.1 < y.1)) := by
  have hsorted := List.sorted_mergeSort slotLE_trans slotLE_total
    (genCandidates events b tz c e)
  have hfst : (genCandidates events b tz c e).Pairwise (fun x y => x.1 < y.1) := by
    rw [genCandidates, genCandidatesN_eq]
    refine List.Pairwise.map _ (fun a b hab => hab) ?_
    exact List.Pairwise.filter _ (genGrid_pairwise_lt c e)
  have hne : (List.mergeSort (genCandidates events b tz c e) slotLE).Pairwise
      (fun x y => x.1 ≠ y.1) :=
    (List.Perm.pairwise_iff (fun h => Ne.symm h)
      (List.mergeSort_perm _ slotLE)).mpr (hfst.imp (fun h => ne_of_lt h))
  refine List.Pairwise.chain' ((hsorted.and hne).imp (fun hab => ?_))
  obtain ⟨h1, h2⟩ := hab
  simp only [slotLE, Bool.or_eq_true, Bool.and_eq_true, decide_eq_true_eq] at h1
  omega

/-- C9: ranking is idempotent — sorting an already ranked list changes
nothing. -/
theorem rank_idempotent (l : List (Int × Int)) : rank (rank l) = rank l := by
  rw [rank, rank]
  exact List.mergeSort_of_sorted (List.sorted_mergeSort slotLE_trans slotLE_total l)

/-- Fixed arguments used by concrete instantiations. -/
def args0 : Args :=
  { ics_files := ["cal.ics"], days_ahead := 0, start_hour := 9, end_hour := 18,
    buffer_mins := 0, timezone := "UTC" }

/-- A world whose timezone database recognizes everything as UTC and whose
filesystem holds empty calendar files. -/
def w0 : World := ⟨fun _ => some tzUTC, fun _ => some []⟩

/-- C5: the rendered output holds at most the first 5 ranked entries (all of
them, in order, when fewer than 5 exist), the empty ranking yields the
explicit empty-result message, and once the timezone and all files are
accepted the program always terminates successfully with that output. -/
theorem top5_output :
    (∀ ranked : List (Int × Int),
      (finalize ranked = Output.noSlots ↔ ranked = []) ∧
      (ranked ≠ [] →
        finalize ranked = Output.table (ranked.take 5) ∧
        (ranked.take 5).length ≤ 5 ∧
        (ranked.length ≤ 5 → ranked.take 5 = ranked))) ∧
    (∀ (w : World) (args : Args) (now : Int) (tz : Tz) (trace : List String)
        (cals : List IcalCalendar),
      w.tzdb args.timezone = some tz →
      readAll w.fs args.ics_files = (trace, Except.ok cals) →
      run w args now = (trace, Except.ok (finalize (rank (genCandidates
        (collectEvents (start_search now) cals) args.buffer_mins tz
        (first_slot now args.start_hour)
        (end_search now args.days_ahead args.end_hour)))))) := by
  constructor
  · intro ranked
    constructor
    · cases ranked <;> simp [finalize]
    · intro hne
      refine ⟨?_, ?_, ?_⟩
      · simp [finalize, hne]
      · exact List.length_take_le 5 ranked
      · intro hlen
        exact List.take_of_length_le hlen
  · intro w args now tz trace cals htz hread
    simp [run, htz, hread]

/-- Witness for C5: a singleton ranking is rendered whole, and a concrete
world with one empty calendar file runs to a successful output. -/
theorem top5_output_witness :
    (([((0 : Int), (0 : Int))] : List (Int × Int)) ≠ []) ∧
    (finalize [((0 : Int), (0 : Int))]
        = Output.table ([((0 : Int), (0 : Int))].take 5) ∧
      ([((0 : Int), (0 : Int))].take 5).length ≤ 5 ∧
      ([((0 : Int), (0 : Int))].length ≤ 5 →
        [((0 : Int), (0 : Int))].take 5 = [((0 : Int), (0 : Int))])) ∧
    run w0 args0 0 = (["cal.ics"], Except.ok (finalize (rank (genCandidates
      (collectEvents (start_search 0) []) args0.buffer_mins tzUTC
      (first_slot 0 args0.start_hour)
      (end_search 0 args0.days_ahead args0.end_hour))))) :=
  ⟨by decide, (top5_output.1 [((0 : Int), (0 : Int))]).2 (by decide),
    top5_output.2 w0 args0 0 tzUTC ["cal.ics"] [] rfl rfl⟩

/-- C7: an unrecognized timezone aborts the run with the timezone error and
an empty file-I/O trace — no calendar file is opened or read. -/
theorem invalid_timezone_fatal_no_file_read (w : World) (args : Args) (now : Int)
    (h : w.tzdb args.timezone = none) :
    run w args now = ([], Except.error MainError.invalidTimezone) := by
  simp [run, h]

/-- Witness for C7: a world that recognizes no timezone identifier. -/
theorem invalid_timezone_fatal_no_file_read_witness :
    (World.mk (fun _ => none) (fun _ => some [])).tzdb args0.timezone = none ∧
    run (World.mk (fun _ => none) (fun _ => some [])) args0 0
      = ([], Except.error MainError.invalidTimezone) :=
  ⟨rfl, invalid_timezone_fatal_no_file_read (World.mk (fun _ => none) (fun _ => some []))
    args0 0 rfl⟩

/-- The claim's character reading of "characters at positions 0-7 spell a
valid calendar date YYYYMMDD": all digits, month in [1, 12], day in
[1, daysInMonth]. -/
def validDate8 (cs : List Char) : Bool :=
  (((digitsVal (cs.take 4)).bind fun y =>
    (digitsVal ((cs.drop 4).take 2)).bind fun mo =>
      (digitsVal ((cs.drop 6).take 2)).bind fun d =>
        some (decide (1 ≤ mo ∧ mo ≤ 12 ∧ 1 ≤ d ∧ d ≤ daysInMonth y mo))).getD false)

/-- The claim's notion of "characters at positions 9-14 spell a valid time
HHMMSS": all digits, hour ≤ 23, minute ≤ 59, second ≤ 59. -/
def validTime6 (cs : List Char) : Bool :=
  (((digitsVal (cs.take 2)).bind fun h =>
    (digitsVal ((cs.drop 2).take 2)).bind fun mi =>
      (digitsVal ((cs.drop 4).take 2)).bind fun sec =>
        some (decide (h ≤ 23 ∧ mi ≤ 59 ∧ sec ≤ 59))).getD false)

/-- Byte-level "bytes at positions 0-7 spell a valid calendar date
YYYYMMDD": all ASCII digits, month in [1, 12], day in [1, daysInMonth]. -/
def validDate8B (bs : List Nat) : Bool :=
  (((digitsValBytes (bs.take 4)).bind fun y =>
    (digitsValBytes ((bs.drop 4).take 2)).bind fun mo =>
      (digitsValBytes ((bs.drop 6).take 2)).bind fun d =>
        some (decide (1 ≤ mo ∧ mo ≤ 12 ∧ 1 ≤ d ∧ d ≤ daysInMonth y mo))).getD false)

/-- Byte-level "bytes at positions 9-14 spell a valid time HHMMSS": all
ASCII digits, hour ≤ 23, minute ≤ 59, second ≤ 59. -/
def validTime6B (bs : List Nat) : Bool :=
  (((digitsValBytes (bs.take 2)).bind fun h =>
    (digitsValBytes ((bs.drop 2).take 2)).bind fun mi =>
      (digitsValBytes ((bs.drop 4).take 2)).bind fun sec =>
        some (decide (h ≤ 23 ∧ mi ≤ 59 ∧ sec ≤ 59))).getD false)

/-- When every slice of the 15-byte body succeeds, the parser returns the
RFC 3339 parse of the slices. -/
theorem parse_ok_of_slices (s y mo d h mi sec : List Nat)
    (hz : s.getLast? = some 90) (hlen : s.dropLast.length = 15)
    (h1 : sliceBytes s.dropLast 0 4 = some y)
    (h2 : sliceBytes s.dropLast 4 6 = some mo)
    (h3 : sliceBytes s.dropLast 6 8 = some d)
    (h4 : sliceBytes s.dropLast 9 11 = some h)
    (h5 : sliceBytes s.dropLast 11 13 = some mi)
    (h6 : sliceBytes s.dropLast 13 15 = some sec) :
    parse_ics_datetime s = ParseOutcome.ok (rfc3339_parse y mo d h mi sec) := by
  rw [parse_ics_datetime, if_pos hz, if_pos hlen, h1, h2, h3, h4, h5, h6]

/-- C10 (amended, byte semantics): the parser returns Some for every 16-byte
input whose last byte is 'Z', whose bytes at positions 0-7 spell a valid date
and 9-14 a valid time, regardless of the byte at position 8 so long as
position 8 is a character boundary (automatic in valid UTF-8); and it returns
None — without reading further or panicking — for every input whose last byte
is not 'Z' or whose body before the 'Z' is not exactly 15 bytes. -/
theorem parse_bytes_spec (s : List Nat) :
    (s.length = 16 → s.getLast? = some 90 →
      validDate8B (s.take 8) = true → validTime6B ((s.drop 9).take 6) = true →
      isCharBoundary s.dropLast 8 = true →
      ∃ t : Int, parse_ics_datetime s = ParseOutcome.ok (some t)) ∧
    (s.getLast? ≠ some 90 ∨ s.dropLast.length ≠ 15 →
      parse_ics_datetime s = ParseOutcome.ok none) := by
  constructor
  · intro hlen hz hd ht hb8
    rcases s with _ | ⟨b0, s⟩; · simp at hlen
    rcases s with _ | ⟨b1, s⟩; · simp at hlen
    rcases s with _ | ⟨b2, s⟩; · simp at hlen
    rcases s with _ | ⟨b3, s⟩; · simp at hlen
    rcases s with _ | ⟨b4, s⟩; · simp at hlen
    rcases s with _ | ⟨b5, s⟩; · simp at hlen
    rcases s with _ | ⟨b6, s⟩; · simp at hlen
    rcases s with _ | ⟨b7, s⟩; · simp at hlen
    rcases s with _ | ⟨b8, s⟩; · simp at hlen
    rcases s with _ | ⟨b9, s⟩; · simp at hlen
    rcases s with _ | ⟨b10, s⟩; · simp at hlen
    rcases s with _ | ⟨b11, s⟩; · simp at hlen
    rcases s with _ | ⟨b12, s⟩; · simp at hlen
    rcases s with _ | ⟨b13, s⟩; · simp at hlen
    rcases s with _ | ⟨b14, s⟩; · simp at hlen
    rcases s with _ | ⟨b15, s⟩; · simp at hlen
    have hrest : s = [] := by
      simp only [List.length_cons] at hlen
      exact List.length_eq_zero.mp (by omega)
    subst hrest
    simp only [List.getLast?_cons_cons, List.getLast?_singleton,
      Option.some.injEq] at hz
    subst hz
    have hd2 : (((digitsValBytes [b0, b1, b2, b3]).bind fun y =>
        (digitsValBytes [b4, b5]).bind fun mo =>
          (digitsValBytes [b6, b7]).bind fun d =>
            some (decide (1 ≤ mo ∧ mo ≤ 12 ∧ 1 ≤ d ∧ d ≤ daysInMonth y mo))).getD false)
        = true := hd
    have ht2 : (((digitsValBytes [b9, b10]).bind fun h =>
        (digitsValBytes [b11, b12]).bind fun mi =>
          (digitsValBytes [b13, b14]).bind fun sec =>
            some (decide (h ≤ 23 ∧ mi ≤ 59 ∧ sec ≤ 59))).getD false) = true := ht
    have hb8c : isCharBoundary
        [b0, b1, b2, b3, b4, b5, b6, b7, b8, b9, b10, b11, b12, b13, b14] 8
        = true := hb8
    cases hy : digitsValBytes [b0, b1, b2, b3] with
    | none => simp [hy] at hd2
    | some yv =>
      simp only [hy, Option.some_bind] at hd2
      cases hmo : digitsValBytes [b4, b5] with
      | none => simp [hmo] at hd2
      | some mov =>
        simp only [hmo, Option.some_bind] at hd2
        cases hdd : digitsValBytes [b6, b7] with
        | none => simp [hdd] at hd2
        | some dv =>
          simp only [hdd, Option.some_bind, Option.getD_some,
            decide_eq_true_eq] at hd2
          cases hh : digitsValBytes [b9, b10] with
          | none => simp [hh] at ht2
          | some hv =>
            simp only [hh, Option.some_bind] at ht2
            cases hmi : digitsValBytes [b11, b12] with
            | none => simp [hmi] at ht2
            | some miv =>
              simp only [hmi, Option.some_bind] at ht2
              cases hsec : digitsValBytes [b13, b14] with
              | none => simp [hsec] at ht2
              | some sv =>
                simp only [hsec, Option.some_bind, Option.getD_some,
                  decide_eq_true_eq] at ht2
                have hdig : (48 ≤ b4 ∧ b4 ≤ 57) ∧ (48 ≤ b6 ∧ b6 ≤ 57) ∧
                    (48 ≤ b9 ∧ b9 ≤ 57) ∧ (48 ≤ b11 ∧ b11 ≤ 57) ∧
                    (48 ≤ b13 ∧ b13 ≤ 57) := by
                  have g1 := hmo
                  have g2 := hdd
                  have g3 := hh
                  have g4 := hmi
                  have g5 := hsec
                  simp only [digitsValBytes, List.all_cons, List.all_nil,
                    Bool.and_true, Bool.and_eq_true, isAsciiDigit,
                    decide_eq_true_eq, Option.ite_none_right_eq_some]
                    at g1 g2 g3 g4 g5
                  omega
                have c4 : isCharBoundary
                    [b0, b1, b2, b3, b4, b5, b6, b7, b8, b9, b10, b11, b12, b13, b14] 4
                    = true := by
                  have e : isCharBoundary
                      [b0, b1, b2, b3, b4, b5, b6, b7, b8, b9, b10, b11, b12, b13, b14] 4
                      = decide (b4 < 128 ∨ 192 ≤ b4) := rfl
                  rw [e, decide_eq_true_eq]
                  omega
                have c6 : isCharBoundary
                    [b0, b1, b2, b3, b4, b5, b6, b7, b8, b9, b10, b11, b12, b13, b14] 6
                    = true := by
                  have e : isCharBoundary
                      [b0, b1, b2, b3, b4, b5, b6, b7, b8, b9, b10, b11, b12, b13, b14] 6
                      = decide (b6 < 128 ∨ 192 ≤ b6) := rfl
                  rw [e, decide_eq_true_eq]
                  omega
                have c9 : isCharBoundary
                    [b0, b1, b2, b3, b4, b5, b6, b7, b8, b9, b10, b11, b12, b13, b14] 9
                    = true := by
                  have e : isCharBoundary
                      [b0, b1, b2, b3, b4, b5, b6, b7, b8, b9, b10, b11, b12, b13, b14] 9
                      = decide (b9 < 128 ∨ 192 ≤ b9) := rfl
                  rw [e, decide_eq_true_eq]
                  omega
                have c11 : isCharBoundary
                    [b0, b1, b2, b3, b4, b5, b6, b7, b8, b9, b10, b11, b12, b13, b14] 11
                    = true := by
                  have e : isCharBoundary
                      [b0, b1, b2, b3, b4, b5, b6, b7, b8, b9, b10, b11, b12, b13, b14] 11
                      = decide (b11 < 128 ∨ 192 ≤ b11) := rfl
                  rw [e, decide_eq_true_eq]
                  omega
                have c13 : isCharBoundary
                    [b0, b1, b2, b3, b4, b5, b6, b7, b8, b9, b10, b11, b12, b13, b14] 13
                    = true := by
                  have e : isCharBoundary
                      [b0, b1, b2, b3, b4, b5, b6, b7, b8, b9, b10, b11, b12, b13, b14] 13
                      = decide (b13 < 128 ∨ 192 ≤ b13) := rfl
                  rw [e, decide_eq_true_eq]
                  omega
                have s04 : sliceBytes
                    [b0, b1, b2, b3, b4, b5, b6, b7, b8, b9, b10, b11, b12, b13, b14] 0 4
                    = some [b0, b1, b2, b3] := by
                  rw [sliceBytes, if_pos ⟨by omega, by simp, rfl, c4⟩]
                  rfl
                have s46 : sliceBytes
                    [b0, b1, b2, b3, b4, b5, b6, b7, b8, b9, b10, b11, b12, b13, b14] 4 6
                    = some [b4, b5] := by
                  rw [sliceBytes, if_pos ⟨by omega, by simp, c4, c6⟩]
                  rfl
                have s68 : sliceBytes
                    [b0, b1, b2, b3, b4, b5, b6, b7, b8, b9, b10, b11, b12, b13, b14] 6 8
                    = some [b6, b7] := by
                  rw [sliceBytes, if_pos ⟨by omega, by simp, c6, hb8c⟩]
                  rfl
                have s911 : sliceBytes
                    [b0, b1, b2, b3, b4, b5, b6, b7, b8, b9, b10, b11, b12, b13, b14] 9 11
                    = some [b9, b10] := by
                  rw [sliceBytes, if_pos ⟨by omega, by simp, c9, c11⟩]
                  rfl
                have s1113 : sliceBytes
                    [b0, b1, b2, b3, b4, b5, b6, b7, b8, b9, b10, b11, b12, b13, b14] 11 13
                    = some [b11, b12] := by
                  rw [sliceBytes, if_pos ⟨by omega, by simp, c11, c13⟩]
                  rfl
                have s1315 : sliceBytes
                    [b0, b1, b2, b3, b4, b5, b6, b7, b8, b9, b10, b11, b12, b13, b14] 13 15
                    = some [b13, b14] := by
                  rw [sliceBytes, if_pos ⟨by omega, by simp, c13, rfl⟩]
                  rfl
                have hcond : 1 ≤ mov ∧ mov ≤ 12 ∧ 1 ≤ dv ∧
                    dv ≤ daysInMonth yv mov ∧ hv ≤ 23 ∧ miv ≤ 59 ∧ sv ≤ 60 := by
                  obtain ⟨x1, x2, x3, x4⟩ := hd2
                  obtain ⟨y1, y2, y3⟩ := ht2
                  exact ⟨x1, x2, x3, x4, y1, y2, by omega⟩
                refine ⟨toSecs yv mov dv hv miv (min sv 59), ?_⟩
                rw [parse_ok_of_slices
                  [b0, b1, b2, b3, b4, b5, b6, b7, b8, b9, b10, b11, b12, b13, b14, 90]
                  [b0, b1, b2, b3] [b4, b5] [b6, b7]
                  [b9, b10] [b11, b12] [b13, b14] rfl rfl s04 s46 s68 s911 s1113 s1315]
                simp only [rfc3339_parse, hy, hmo, hdd, hh, hmi, hsec]
                rw [if_pos hcond]
  · intro h
    rcases h with hz | hlen
    · rw [parse_ics_datetime, if_neg hz]
    · by_cases hz : s.getLast? = some 90
      · rw [parse_ics_datetime, if_pos hz, if_neg hlen]
      · rw [parse_ics_datetime, if_neg hz]

/-- Witness for C10: the UTF-8 bytes of 20240101T090000Z parse to Some. -/
theorem parse_bytes_spec_witness :
    ([50, 48, 50, 52, 48, 49, 48, 49, 84, 48, 57, 48, 48, 48, 48, 90]
      : List Nat).length = 16 ∧
    ([50, 48, 50, 52, 48, 49, 48, 49, 84, 48, 57, 48, 48, 48, 48, 90]
      : List Nat).getLast? = some 90 ∧
    validDate8B (([50, 48, 50, 52, 48, 49, 48, 49, 84, 48, 57, 48, 48, 48, 48,
      90] : List Nat).take 8) = true ∧
    validTime6B ((([50, 48, 50, 52, 48, 49, 48, 49, 84, 48, 57, 48, 48, 48,
      48, 90] : List Nat).drop 9).take 6) = true ∧
    isCharBoundary ([50, 48, 50, 52, 48, 49, 48, 49, 84, 48, 57, 48, 48, 48,
      48, 90] : List Nat).dropLast 8 = true ∧
    ∃ t : Int, parse_ics_datetime
      [50, 48, 50, 52, 48, 49, 48, 49, 84, 48, 57, 48, 48, 48, 48, 90]
      = ParseOutcome.ok (some t) :=
  ⟨by decide, by decide, by decide, by decide, by decide,
    (parse_bytes_spec
      [50, 48, 50, 52, 48, 49, 48, 49, 84, 48, 57, 48, 48, 48, 48, 90]).1
      (by decide) (by decide) (by decide) (by decide) (by decide)⟩

/-- C10 counterexample: under the claim's character reading, the input
20240101é090000Z has 16 characters, ends in 'Z', and spells a valid date at
positions 0-7 and a valid time at positions 9-14 — yet the program, which
counts the body in UTF-8 bytes (é occupies two), sees a 16-byte body and
returns None, not Some. -/
theorem parse_multibyte_counterexample :
    (['2', '0', '2', '4', '0', '1', '0', '1', 'é', '0', '9', '0', '0', '0',
      '0', 'Z'] : List Char).length = 16 ∧
    (['2', '0', '2', '4', '0', '1', '0', '1', 'é', '0', '9', '0', '0', '0',
      '0', 'Z'] : List Char).getLast? = some 'Z' ∧
    validDate8 ((['2', '0', '2', '4', '0', '1', '0', '1', 'é', '0', '9', '0',
      '0', '0', '0', 'Z'] : List Char).take 8) = true ∧
    validTime6 (((['2', '0', '2', '4', '0', '1', '0', '1', 'é', '0', '9', '0',
      '0', '0', '0', 'Z'] : List Char).drop 9).take 6) = true ∧
    parse_ics_datetime (utf8EncodeList ['2', '0', '2', '4', '0', '1', '0',
      '1', 'é', '0', '9', '0', '0', '0', '0', 'Z'])
      = ParseOutcome.ok none :=
  ⟨by decide, by decide, by decide, by decide, by decide⟩

/-- C8 failing input: the value 12345678é23456Z has a 15-byte body (only 14
characters, é spanning bytes 8-9), so it passes the byte-length check and the
hour slice [9..11] then hits a non-character-boundary: the program panics and
aborts the run instead of silently dropping the event. -/
theorem parse_panic_input :
    (utf8EncodeList ['1', '2', '3', '4', '5', '6', '7', '8', 'é', '2', '3',
      '4', '5', '6', 'Z']).dropLast.length = 15 ∧
    (['1', '2', '3', '4', '5', '6', '7', '8', 'é', '2', '3', '4', '5', '6',
      'Z'] : List Char).dropLast.length = 14 ∧
    parse_ics_datetime (utf8EncodeList ['1', '2', '3', '4', '5', '6', '7',
      '8', 'é', '2', '3', '4', '5', '6', 'Z']) = ParseOutcome.panic :=
  ⟨by decide, by decide, by decide⟩

end SlotSuggester
